import Mathlib

/-!
Verification of `djblets/webapi/decorators.py`.

This file gives a shallow embedding of the decorators module: python dicts
over string keys become association lists with replace-on-assign insertion,
Django `QueryDict`-like parameter sets become association lists whose values
may be null, and each decorator's inner wrapper function becomes a Lean
function on an explicit `Request` value.  The theorems at the end settle the
spec claims against these definitions.
-/

set_option autoImplicit false

namespace Djblets

universe u

/-! ## Python dictionaries as association lists -/

/-- A python dict with string keys, in insertion order. -/
abbrev Dict (α : Type u) : Type u := List (String × α)

/-- Lookup of a key (python `d[k]` / `d.get(k)`): first entry with the key. -/
def dictLookup {α : Type u} (d : Dict α) (k : String) : Option α :=
  match d with
  | [] => none
  | (k2, v) :: rest => if k2 = k then some v else dictLookup rest k

/-- Python `d[k] = v`: replace the value in place if the key exists,
otherwise append the new entry at the end. -/
def dictInsert {α : Type u} (d : Dict α) (k : String) (v : α) : Dict α :=
  match d with
  | [] => [(k, v)]
  | (k2, v2) :: rest =>
      if k2 = k then (k2, v) :: rest else (k2, v2) :: dictInsert rest k v

/-- Python `d.update(e)`: insert every entry of `e` into `d`, in order. -/
def dictUpdate {α : Type u} (d e : Dict α) : Dict α :=
  e.foldl (fun acc kv => dictInsert acc kv.1 kv.2) d

/-- Python `k in d`. -/
def dictContains {α : Type u} (d : Dict α) (k : String) : Bool :=
  (dictLookup d k).isSome

@[simp] theorem dictLookup_nil {α : Type u} (k : String) :
    dictLookup ([] : Dict α) k = none := rfl

@[simp] theorem dictLookup_cons {α : Type u} (k2 : String) (v : α) (rest : Dict α)
    (k : String) :
    dictLookup ((k2, v) :: rest) k = if k2 = k then some v else dictLookup rest k := rfl

theorem dictLookup_insert_self {α : Type u} (d : Dict α) (k : String) (v : α) :
    dictLookup (dictInsert d k v) k = some v := by
  induction d with
  | nil => simp [dictInsert]
  | cons hd tl ih =>
      obtain ⟨k2, v2⟩ := hd
      by_cases h : k2 = k
      · simp [dictInsert, h]
      · simp [dictInsert, h, ih]

theorem dictLookup_insert_ne {α : Type u} (d : Dict α) (k k2 : String) (v : α)
    (h : k2 ≠ k) : dictLookup (dictInsert d k2 v) k = dictLookup d k := by
  induction d with
  | nil => simp [dictInsert, h]
  | cons hd tl ih =>
      obtain ⟨k3, v3⟩ := hd
      by_cases h3 : k3 = k2
      · subst h3; simp [dictInsert, h]
      · simp only [dictInsert, if_neg h3, dictLookup_cons]
        by_cases h4 : k3 = k
        · simp [h4]
        · simp [h4, ih]

theorem dictLookup_isSome_of_mem {α : Type u} (d : Dict α) (k : String) (v : α)
    (h : (k, v) ∈ d) : (dictLookup d k).isSome := by
  induction d with
  | nil => simp at h
  | cons hd tl ih =>
      obtain ⟨k2, v2⟩ := hd
      rcases List.mem_cons.mp h with h1 | h1
      · obtain ⟨rfl, rfl⟩ := Prod.mk.injEq .. ▸ h1
        simp [dictLookup]
      · by_cases h2 : k2 = k
        · simp [dictLookup, h2]
        · simpa [dictLookup, h2] using ih h1

theorem dictLookup_ne_nil {α : Type u} (d : Dict α) (k : String) (v : α)
    (h : dictLookup d k = some v) : d ≠ [] := by
  intro hnil; subst hnil; simp at h

/-! ## Request parameter sets and values -/

/-- A Django `QueryDict`-like parameter mapping (`request.GET`, `request.POST`,
`request.FILES`).  A value of `none` under a present key models a null value,
so `pyGet` models python's `params.get(name, None)` returning `None` exactly
when the key is absent or its value is null. -/
abbrev ParamSet : Type := Dict (Option String)

/-- Python `params.get(name, None)`: `none` when absent or null. -/
def pyGet (p : ParamSet) (name : String) : Option String :=
  match dictLookup p name with
  | none => none
  | some v => v

/-- A python runtime value as it appears among keyword arguments after the
field validator's coercion pass. -/
inductive PyValue : Type where
  | none : PyValue
  | str (s : String) : PyValue
  | int (n : Int) : PyValue
  | bool (b : Bool) : PyValue
  deriving DecidableEq, Repr

/-- The declared type of a schema field: the python class `str`, `int`,
`bool` or `file`, or a list/tuple of string choices. -/
inductive FieldType : Type where
  | str : FieldType
  | int : FieldType
  | bool : FieldType
  | file : FieldType
  | choices (cs : List String) : FieldType
  deriving DecidableEq, Repr

/-- The model of the Django request object, restricted to what the module
reads: the HTTP method, the three parameter sets, the authentication state
and permissions of `request.user`, and whether `HTTP_AUTHORIZATION` is in
`request.META`. -/
structure Request : Type where
  method : String
  GET : ParamSet
  POST : ParamSet
  FILES : ParamSet
  user_is_authenticated : Bool
  user_has_perm : String → Bool
  has_auth_header : Bool

/-- Python `int(value)` on a string: optional surrounding whitespace, an
optional sign, then one or more decimal digits; anything else raises
`ValueError`, modelled as `none`.  Implemented over the character list of
the string. -/
def pyInt (s : String) : Option Int :=
  let t :=
    ((s.data.dropWhile Char.isWhitespace).reverse.dropWhile
      Char.isWhitespace).reverse
  match t with
  | [] => none
  | c :: rest =>
      let signed : Bool × List Char :=
        if c = '-' then (true, rest)
        else if c = '+' then (false, rest)
        else (false, c :: rest)
      let digits := signed.2
      if digits.isEmpty || !(digits.all Char.isDigit) then none
      else
        let n : Nat := digits.foldl (fun acc ch => acc * 10 + (ch.toNat - 48)) 0
        if signed.1 then some (-(n : Int)) else some (n : Int)

/-- A single-quote character, used to build the validator's messages. -/
def sq : String := String.singleton (Char.ofNat 39)

/-- Message recorded by the unknown-field check. -/
def notSupportedMsg : String := "Field is not supported"

/-- Message recorded by the required-field check. -/
def requiredMsg : String := "This field is required"

/-- Translation of `', '.join(["'%s'" for choice in choices])` from the
source: the comprehension yields the literal three-character string `'%s'`
once per choice, without interpolating the choice into it. -/
def choicesRendered (choices : List String) : String :=
  String.intercalate ", " (choices.map (fun _ => sq ++ "%s" ++ sq))

/-- The multiple-choice violation message
`"'%s' is not a valid value. Valid values are: %s" % (value, joined)`. -/
def choiceErrMsg (value : String) (choices : List String) : String :=
  sq ++ value ++ sq ++ " is not a valid value. Valid values are: " ++
    choicesRendered choices

/-- The integer violation message `"'%s' is not an integer" % value`. -/
def intErrMsg (value : String) : String :=
  sq ++ value ++ sq ++ " is not an integer"

/-! ## The field validator (`webapi_request_fields`)

The three loops of the inner `_validate` function become three recursive
functions over the association lists they iterate, threading the
`invalid_fields` dict (and for the coercion pass also `new_kwargs`). -/

/-- The body of the unknown-field loop: for every key of the source
parameter set, skip `_method` and `callback`, and record
`['Field is not supported']` for keys not in `supported_fields`. -/
def unknown_check_loop (supported_fields : Dict FieldType) :
    ParamSet → Dict (List String) → Dict (List String)
  | [], invalid_fields => invalid_fields
  | (field_name, _) :: rest, invalid_fields =>
      unknown_check_loop supported_fields rest
        (if field_name = "_method" ∨ field_name = "callback" then invalid_fields
         else if dictContains supported_fields field_name then invalid_fields
         else dictInsert invalid_fields field_name [notSupportedMsg])

/-- The unknown-field check, guarded by `if not allow_unknown`. -/
def unknown_check (allow_unknown : Bool) (supported_fields : Dict FieldType)
    (request_fields : ParamSet) (invalid_fields : Dict (List String)) :
    Dict (List String) :=
  if allow_unknown then invalid_fields
  else unknown_check_loop supported_fields request_fields invalid_fields

/-- One iteration of the required-field loop: look the field up in
`request.FILES` when its type is `file` and in `request_fields` otherwise,
and record `['This field is required']` when the result is absent or
null. -/
def required_step (request : Request) (request_fields : ParamSet)
    (field_name : String) (ftype : FieldType)
    (invalid_fields : Dict (List String)) : Dict (List String) :=
  let temp_fields :=
    if ftype = FieldType.file then request.FILES else request_fields
  match pyGet temp_fields field_name with
  | some _ => invalid_fields
  | none => dictInsert invalid_fields field_name [requiredMsg]

/-- The required-field loop over the entries of `required`. -/
def required_check (request : Request) (request_fields : ParamSet) :
    Dict FieldType → Dict (List String) → Dict (List String)
  | [], invalid_fields => invalid_fields
  | (field_name, ftype) :: rest, invalid_fields =>
      required_check request request_fields rest
        (required_step request request_fields field_name ftype invalid_fields)

/-- Translation of `isinstance(info['type'], file)` from the source: the
schema's `type` entry is a class object (`str`, `int`, `bool`, `file`) or a
list/tuple of choices, and `isinstance(x, file)` holds only for open file
objects, never for a class or a list, so this guard is false for every
schema entry. -/
def pyIsInstanceFile (_ : FieldType) : Bool := false

/-- One iteration of the coercion loop after the `isinstance` guard: given
the declared type and the value read from the source parameter set, return
the value written into `new_kwargs` and the violation message recorded for
the field, if any. -/
def coerce_field (ftype : FieldType) (raw : Option String) :
    PyValue × Option String :=
  match raw with
  | none => (PyValue.none, none)
  | some value =>
      match ftype with
      | FieldType.choices cs =>
          if cs.contains value then (PyValue.str value, none)
          else (PyValue.str value, some (choiceErrMsg value cs))
      | FieldType.bool => (PyValue.bool (value == "1" || value == "True"), none)
      | FieldType.int =>
          match pyInt value with
          | some n => (PyValue.int n, none)
          | none => (PyValue.str value, some (intErrMsg value))
      | _ => (PyValue.str value, none)

/-- One iteration of the coercion loop: unless the `isinstance` guard
skips the field, write the coerced value into `new_kwargs` and record the
violation, if any, in `invalid_fields`. -/
def coercion_step (request_fields : ParamSet) (field_name : String)
    (ftype : FieldType) (acc : Dict PyValue × Dict (List String)) :
    Dict PyValue × Dict (List String) :=
  if pyIsInstanceFile ftype then acc
  else
    let r := coerce_field ftype (pyGet request_fields field_name)
    (dictInsert acc.1 field_name r.1,
     match r.2 with
     | some msg => dictInsert acc.2 field_name [msg]
     | none => acc.2)

/-- The coercion loop over `supported_fields`, threading `new_kwargs` and
`invalid_fields`. -/
def coercion_pass (request_fields : ParamSet) :
    Dict FieldType → Dict PyValue → Dict (List String) →
    Dict PyValue × Dict (List String)
  | [], new_kwargs, invalid_fields => (new_kwargs, invalid_fields)
  | (field_name, ftype) :: rest, new_kwargs, invalid_fields =>
      let acc := coercion_step request_fields field_name ftype
        (new_kwargs, invalid_fields)
      coercion_pass request_fields rest acc.1 acc.2

/-- The selected source parameter set: `request.GET` for a `GET` request,
`request.POST` otherwise. -/
def selected_fields (request : Request) : ParamSet :=
  if request.method = "GET" then request.GET else request.POST

/-- The outcome of one invocation of `_validate` before the final dispatch:
either the `INVALID_FORM_DATA` detail payload `{'fields': invalid_fields}`
or the keyword arguments the wrapped view is called with. -/
inductive ValidateResult : Type where
  | invalidFormData (fields : Dict (List String)) : ValidateResult
  | callView (new_kwargs : Dict PyValue) : ValidateResult
  deriving DecidableEq, Repr

/-- The three checks of `_validate` in order: the unknown-field check on an
initially empty `invalid_fields`, the required-field check, then the
coercion pass starting from a copy of the caller's keyword arguments.  The
result is the final `(new_kwargs, invalid_fields)` pair. -/
def validate_out (required optional : Dict FieldType) (allow_unknown : Bool)
    (request : Request) (kwargs : Dict PyValue) :
    Dict PyValue × Dict (List String) :=
  let request_fields := selected_fields request
  let supported_fields := dictUpdate required optional
  coercion_pass request_fields supported_fields kwargs
    (required_check request request_fields required
      (unknown_check allow_unknown supported_fields request_fields []))

/-- The inner `_validate` function of `webapi_request_fields`, up to the
final dispatch on `invalid_fields`. -/
def webapi_request_fields (required optional : Dict FieldType)
    (allow_unknown : Bool) (request : Request) (kwargs : Dict PyValue) :
    ValidateResult :=
  let out := validate_out required optional allow_unknown request kwargs
  if out.2.isEmpty then ValidateResult.callView out.1
  else ValidateResult.invalidFormData out.2

/-- The three error objects this module returns. -/
inductive ApiError : Type where
  | NOT_LOGGED_IN : ApiError
  | PERMISSION_DENIED : ApiError
  | INVALID_FORM_DATA : ApiError
  deriving DecidableEq, Repr

/-- The full dispatch of `_validate`: on violations return the tuple
`(INVALID_FORM_DATA, {'fields': invalid_fields})`, otherwise call the view
with the original positional arguments and the merged keyword arguments.
The positional arguments are abstracted as one opaque value `args` handed
to the view unchanged (in the source the request is extracted from them by
`_find_httprequest`; here it is the separate `request` parameter). -/
def webapi_request_fields_run {A R : Type} (view : A → Dict PyValue → R)
    (required optional : Dict FieldType) (allow_unknown : Bool)
    (request : Request) (args : A) (kwargs : Dict PyValue) :
    Sum (ApiError × Dict (List String)) R :=
  match webapi_request_fields required optional allow_unknown request kwargs with
  | ValidateResult.invalidFormData fields =>
      Sum.inl (ApiError.INVALID_FORM_DATA, fields)
  | ValidateResult.callView new_kwargs => Sum.inr (view args new_kwargs)

/-! ## The response model and the auth and permission gates -/

/-- A value returned by a view: either a `WebAPIResponse` (a
`WebAPIResponseError` when `error` is set) carrying its `api_format`
attribute, or any other python value, which format tagging leaves alone. -/
inductive Resp : Type where
  | webapi (error : Option ApiError) (api_format : PyValue) : Resp
  | plain : Resp
  deriving DecidableEq, Repr

/-- The shared tagging statement
`if isinstance(response, WebAPIResponse): response.api_format =
kwargs.get('api_format', 'json')`. -/
def set_api_format (response : Resp) (kwargs : Dict PyValue) : Resp :=
  match response with
  | Resp.webapi e _ =>
      Resp.webapi e ((dictLookup kwargs "api_format").getD (PyValue.str "json"))
  | Resp.plain => Resp.plain

/-- The inner `_checklogin` function of `webapi_login_required`.  The auth
backend `basic_access_login` is an abstract request transformer `login`
(it mutates the request's session state in place; its return value is
unused).  The second component counts how many times it was invoked. -/
def checklogin (login : Request → Request) (view : Request → Resp)
    (request : Request) (kwargs : Dict PyValue) : Resp × Nat :=
  let step :=
    if !request.user_is_authenticated && request.has_auth_header then
      (login request, 1)
    else (request, 0)
  let request2 := step.1
  let response :=
    if request2.user_is_authenticated then view request2
    else Resp.webapi (some ApiError.NOT_LOGGED_IN) (PyValue.str "json")
  (set_api_format response kwargs, step.2)

/-- The inner `_checkpermissions` function of `webapi_permission_required`.
It reads only `request.user`; there is no call to any auth backend. -/
def checkpermissions (perm : String) (view : Request → Resp)
    (request : Request) (kwargs : Dict PyValue) : Resp :=
  let response :=
    if !request.user_is_authenticated then
      Resp.webapi (some ApiError.NOT_LOGGED_IN) (PyValue.str "json")
    else if !request.user_has_perm perm then
      Resp.webapi (some ApiError.PERMISSION_DENIED) (PyValue.str "json")
    else view request
  set_api_format response kwargs

/-! ## Lemmas about the dictionary operations -/

theorem dictContains_insert {α : Type u} (d : Dict α) (k k2 : String) (v : α) :
    dictContains (dictInsert d k2 v) k = (decide (k2 = k) || dictContains d k) := by
  by_cases h : k2 = k
  · subst h
    simp [dictContains, dictLookup_insert_self]
  · simp [dictContains, dictLookup_insert_ne d k k2 v h, h]

theorem dictUpdate_cons {α : Type u} (d : Dict α) (k2 : String) (v : α)
    (rest : Dict α) :
    dictUpdate d ((k2, v) :: rest) = dictUpdate (dictInsert d k2 v) rest := by
  simp [dictUpdate]

theorem dictContains_dictUpdate {α : Type u} (e d : Dict α) (k : String) :
    dictContains (dictUpdate d e) k = (dictContains d k || dictContains e k) := by
  induction e generalizing d with
  | nil => simp [dictUpdate, dictContains, dictLookup]
  | cons hd tl ih =>
      obtain ⟨k2, v⟩ := hd
      rw [dictUpdate_cons, ih]
      by_cases h : k2 = k
      · subst h
        simp [dictContains, dictLookup_insert_self]
      · simp only [dictContains, dictLookup_insert_ne d k k2 v h,
          dictLookup_cons, if_neg h]

theorem dictContains_iff_mem_keys {α : Type u} (d : Dict α) (k : String) :
    dictContains d k = true ↔ k ∈ d.map Prod.fst := by
  induction d with
  | nil => simp [dictContains, dictLookup]
  | cons hd tl ih =>
      obtain ⟨k2, v⟩ := hd
      by_cases h : k2 = k
      · subst h
        simp [dictContains, dictLookup]
      · simp only [dictContains, dictLookup_cons, if_neg h, List.map_cons,
          List.mem_cons]
        constructor
        · intro hh
          exact Or.inr (ih.mp hh)
        · intro hh
          rcases hh with hh | hh
          · exact absurd hh.symm h
          · exact ih.mpr hh

/-! ## Lemmas about the unknown-field check -/

theorem unknown_check_loop_preserves (s : Dict FieldType) (rf : ParamSet)
    (inv : Dict (List String)) (k : String)
    (h : dictLookup inv k = some [notSupportedMsg]) :
    dictLookup (unknown_check_loop s rf inv) k = some [notSupportedMsg] := by
  induction rf generalizing inv with
  | nil => exact h
  | cons hd rest ih =>
      obtain ⟨fn, v⟩ := hd
      apply ih
      by_cases h1 : fn = "_method" ∨ fn = "callback"
      · simpa [h1] using h
      · by_cases h2 : dictContains s fn
        · simpa [h1, h2] using h
        · simp only [if_neg h1, h2, Bool.false_eq_true, if_false]
          by_cases h3 : fn = k
          · subst h3
            exact dictLookup_insert_self inv fn [notSupportedMsg]
          · rw [dictLookup_insert_ne inv k fn [notSupportedMsg] h3]
            exact h

theorem unknown_check_loop_records (s : Dict FieldType) (rf : ParamSet)
    (inv : Dict (List String)) (k : String)
    (hmem : k ∈ rf.map Prod.fst)
    (hres : ¬(k = "_method" ∨ k = "callback"))
    (hsup : dictContains s k = false) :
    dictLookup (unknown_check_loop s rf inv) k = some [notSupportedMsg] := by
  induction rf generalizing inv with
  | nil => simp at hmem
  | cons hd rest ih =>
      obtain ⟨fn, v⟩ := hd
      have hmem2 : k = fn ∨ k ∈ rest.map Prod.fst := by
        rw [List.map_cons, List.mem_cons] at hmem; exact hmem
      rcases hmem2 with h1 | h1
      · subst h1
        simp only [unknown_check_loop, if_neg hres, hsup, Bool.false_eq_true,
          if_false]
        exact unknown_check_loop_preserves s rest _ k
          (dictLookup_insert_self inv k [notSupportedMsg])
      · exact ih _ h1

theorem unknown_check_loop_frame (s : Dict FieldType) (rf : ParamSet)
    (inv : Dict (List String)) (k : String)
    (h : (k = "_method" ∨ k = "callback") ∨ dictContains s k = true) :
    dictLookup (unknown_check_loop s rf inv) k = dictLookup inv k := by
  induction rf generalizing inv with
  | nil => rfl
  | cons hd rest ih =>
      obtain ⟨fn, v⟩ := hd
      rw [unknown_check_loop]
      by_cases h1 : fn = "_method" ∨ fn = "callback"
      · rw [if_pos h1]; exact ih inv
      · by_cases h2 : dictContains s fn
        · simp only [if_neg h1, h2, if_true]
          exact ih inv
        · simp only [if_neg h1, h2, Bool.false_eq_true, if_false]
          have hne : fn ≠ k := by
            intro heq
            subst heq
            rcases h with h | h
            · exact h1 h
            · rw [h] at h2; exact h2 rfl
          rw [ih _, dictLookup_insert_ne inv k fn [notSupportedMsg] hne]

theorem unknown_check_true (s : Dict FieldType) (rf : ParamSet)
    (inv : Dict (List String)) :
    unknown_check true s rf inv = inv := rfl

/-! ## Lemmas about the required-field check -/

theorem required_step_absent (request : Request) (rf : ParamSet)
    (fn : String) (ft : FieldType) (inv : Dict (List String))
    (habs : pyGet (if ft = FieldType.file then request.FILES else rf) fn = none) :
    required_step request rf fn ft inv = dictInsert inv fn [requiredMsg] := by
  simp only [required_step, habs]

theorem required_step_lookup_preserves (request : Request) (rf : ParamSet)
    (fn : String) (ft : FieldType) (inv : Dict (List String)) (k : String)
    (h : dictLookup inv k = some [requiredMsg]) :
    dictLookup (required_step request rf fn ft inv) k = some [requiredMsg] := by
  rw [required_step]
  cases pyGet (if ft = FieldType.file then request.FILES else rf) fn with
  | some v => exact h
  | none =>
      by_cases h3 : fn = k
      · subst h3
        exact dictLookup_insert_self inv fn [requiredMsg]
      · rw [dictLookup_insert_ne inv k fn [requiredMsg] h3]
        exact h

theorem required_step_lookup_ne (request : Request) (rf : ParamSet)
    (fn : String) (ft : FieldType) (inv : Dict (List String)) (k : String)
    (hne : fn ≠ k) :
    dictLookup (required_step request rf fn ft inv) k = dictLookup inv k := by
  rw [required_step]
  cases pyGet (if ft = FieldType.file then request.FILES else rf) fn with
  | some v => rfl
  | none => exact dictLookup_insert_ne inv k fn [requiredMsg] hne

theorem required_check_preserves (request : Request) (rf : ParamSet)
    (l : Dict FieldType) (inv : Dict (List String)) (k : String)
    (h : dictLookup inv k = some [requiredMsg]) :
    dictLookup (required_check request rf l inv) k = some [requiredMsg] := by
  induction l generalizing inv with
  | nil => exact h
  | cons hd rest ih =>
      obtain ⟨fn, ft⟩ := hd
      exact ih _ (required_step_lookup_preserves request rf fn ft inv k h)

theorem required_check_records (request : Request) (rf : ParamSet)
    (l : Dict FieldType) (inv : Dict (List String)) (k : String)
    (ft : FieldType) (hmem : (k, ft) ∈ l)
    (habs : pyGet (if ft = FieldType.file then request.FILES else rf) k = none) :
    dictLookup (required_check request rf l inv) k = some [requiredMsg] := by
  induction l generalizing inv with
  | nil => simp at hmem
  | cons hd rest ih =>
      obtain ⟨fn, ft2⟩ := hd
      rcases List.mem_cons.mp hmem with h1 | h1
      · have hfn : k = fn := (Prod.mk.injEq .. ▸ h1).1
        have hft : ft = ft2 := (Prod.mk.injEq .. ▸ h1).2
        subst hfn; subst hft
        rw [required_check, required_step_absent request rf k ft inv habs]
        exact required_check_preserves request rf rest _ k
          (dictLookup_insert_self inv k [requiredMsg])
      · exact ih _ h1

theorem required_check_frame (request : Request) (rf : ParamSet)
    (l : Dict FieldType) (inv : Dict (List String)) (k : String)
    (h : k ∉ l.map Prod.fst) :
    dictLookup (required_check request rf l inv) k = dictLookup inv k := by
  induction l generalizing inv with
  | nil => rfl
  | cons hd rest ih =>
      obtain ⟨fn, ft⟩ := hd
      have hne : fn ≠ k := by
        intro heq; subst heq
        exact h (by simp)
      have htail : k ∉ rest.map Prod.fst := by
        intro hmem; exact h (by simp [hmem])
      rw [required_check, ih _ htail,
        required_step_lookup_ne request rf fn ft inv k hne]

/-! ## Lemmas about the coercion pass -/

theorem coercion_step_eq (rf : ParamSet) (fn : String) (ft : FieldType)
    (kw : Dict PyValue) (inv : Dict (List String)) :
    coercion_step rf fn ft (kw, inv) =
      (dictInsert kw fn (coerce_field ft (pyGet rf fn)).1,
       match (coerce_field ft (pyGet rf fn)).2 with
       | some msg => dictInsert inv fn [msg]
       | none => inv) := by
  simp only [coercion_step, pyIsInstanceFile, Bool.false_eq_true, if_false]

theorem coercion_pass_cons (rf : ParamSet) (fn : String) (ft : FieldType)
    (rest : Dict FieldType) (kw : Dict PyValue) (inv : Dict (List String)) :
    coercion_pass rf ((fn, ft) :: rest) kw inv =
      coercion_pass rf rest (dictInsert kw fn (coerce_field ft (pyGet rf fn)).1)
        (match (coerce_field ft (pyGet rf fn)).2 with
         | some msg => dictInsert inv fn [msg]
         | none => inv) := by
  simp only [coercion_pass, coercion_step_eq]

theorem coercion_pass_kwargs_frame (rf : ParamSet) (l : Dict FieldType)
    (kw : Dict PyValue) (inv : Dict (List String)) (k : String)
    (h : k ∉ l.map Prod.fst) :
    dictLookup (coercion_pass rf l kw inv).1 k = dictLookup kw k := by
  induction l generalizing kw inv with
  | nil => rfl
  | cons hd rest ih =>
      obtain ⟨fn, ft⟩ := hd
      have hne : fn ≠ k := by
        intro heq; subst heq; exact h (by simp)
      have htail : k ∉ rest.map Prod.fst := by
        intro hm; exact h (by simp [hm])
      rw [coercion_pass_cons, ih _ _ htail, dictLookup_insert_ne kw k fn _ hne]

theorem coercion_pass_invalid_frame (rf : ParamSet) (l : Dict FieldType)
    (kw : Dict PyValue) (inv : Dict (List String)) (k : String)
    (h : k ∉ l.map Prod.fst) :
    dictLookup (coercion_pass rf l kw inv).2 k = dictLookup inv k := by
  induction l generalizing kw inv with
  | nil => rfl
  | cons hd rest ih =>
      obtain ⟨fn, ft⟩ := hd
      have hne : fn ≠ k := by
        intro heq; subst heq; exact h (by simp)
      have htail : k ∉ rest.map Prod.fst := by
        intro hm; exact h (by simp [hm])
      rw [coercion_pass_cons, ih _ _ htail]
      cases (coerce_field ft (pyGet rf fn)).2 with
      | none => rfl
      | some msg => exact dictLookup_insert_ne inv k fn [msg] hne

theorem coercion_pass_kwargs_lookup (rf : ParamSet) (l : Dict FieldType)
    (kw : Dict PyValue) (inv : Dict (List String)) (k : String) (ft : FieldType)
    (hmem : (k, ft) ∈ l) (hnd : (l.map Prod.fst).Nodup) :
    dictLookup (coercion_pass rf l kw inv).1 k =
      some (coerce_field ft (pyGet rf k)).1 := by
  induction l generalizing kw inv with
  | nil => simp at hmem
  | cons hd rest ih =>
      obtain ⟨fn, ft2⟩ := hd
      rw [List.map_cons, List.nodup_cons] at hnd
      obtain ⟨hfn_not, hnd2⟩ := hnd
      rcases List.mem_cons.mp hmem with h1 | h1
      · have hk : k = fn := (Prod.mk.injEq .. ▸ h1).1
        have hft : ft = ft2 := (Prod.mk.injEq .. ▸ h1).2
        subst hk; subst hft
        rw [coercion_pass_cons, coercion_pass_kwargs_frame rf rest _ _ k hfn_not]
        exact dictLookup_insert_self kw k _
      · rw [coercion_pass_cons]
        exact ih _ _ h1 hnd2

theorem coercion_pass_invalid_lookup (rf : ParamSet) (l : Dict FieldType)
    (kw : Dict PyValue) (inv : Dict (List String)) (k : String) (ft : FieldType)
    (msg : String) (hmem : (k, ft) ∈ l) (hnd : (l.map Prod.fst).Nodup)
    (hc : (coerce_field ft (pyGet rf k)).2 = some msg) :
    dictLookup (coercion_pass rf l kw inv).2 k = some [msg] := by
  induction l generalizing kw inv with
  | nil => simp at hmem
  | cons hd rest ih =>
      obtain ⟨fn, ft2⟩ := hd
      rw [List.map_cons, List.nodup_cons] at hnd
      obtain ⟨hfn_not, hnd2⟩ := hnd
      rcases List.mem_cons.mp hmem with h1 | h1
      · have hk : k = fn := (Prod.mk.injEq .. ▸ h1).1
        have hft : ft = ft2 := (Prod.mk.injEq .. ▸ h1).2
        subst hk; subst hft
        rw [coercion_pass_cons, hc,
          coercion_pass_invalid_frame rf rest _ _ k hfn_not]
        exact dictLookup_insert_self inv k [msg]
      · rw [coercion_pass_cons]
        exact ih _ _ h1 hnd2

theorem coercion_pass_kwargs_agree (rf : ParamSet) (l : Dict FieldType)
    (kw1 kw2 : Dict PyValue) (inv1 inv2 : Dict (List String)) (k : String)
    (h : dictLookup kw1 k = dictLookup kw2 k) :
    dictLookup (coercion_pass rf l kw1 inv1).1 k =
      dictLookup (coercion_pass rf l kw2 inv2).1 k := by
  induction l generalizing kw1 kw2 inv1 inv2 with
  | nil => exact h
  | cons hd rest ih =>
      obtain ⟨fn, ft⟩ := hd
      rw [coercion_pass_cons, coercion_pass_cons]
      apply ih
      by_cases hfk : fn = k
      · subst hfk
        rw [dictLookup_insert_self, dictLookup_insert_self]
      · rw [dictLookup_insert_ne kw1 k fn _ hfk,
          dictLookup_insert_ne kw2 k fn _ hfk]
        exact h

theorem coercion_pass_override (rf : ParamSet) (l : Dict FieldType) (k : String)
    (hmem : k ∈ l.map Prod.fst) (kw1 kw2 : Dict PyValue)
    (inv1 inv2 : Dict (List String)) :
    dictLookup (coercion_pass rf l kw1 inv1).1 k =
      dictLookup (coercion_pass rf l kw2 inv2).1 k := by
  induction l generalizing kw1 kw2 inv1 inv2 with
  | nil => simp at hmem
  | cons hd rest ih =>
      obtain ⟨fn, ft⟩ := hd
      have hmem2 : k = fn ∨ k ∈ rest.map Prod.fst := by
        rw [List.map_cons, List.mem_cons] at hmem; exact hmem
      rw [coercion_pass_cons, coercion_pass_cons]
      rcases hmem2 with h1 | h1
      · subst h1
        apply coercion_pass_kwargs_agree
        rw [dictLookup_insert_self, dictLookup_insert_self]
      · exact ih h1 _ _ _ _

/-! ## Every recorded violation is a singleton message list -/

/-- Every value of the invalid-fields dict is a one-element message list. -/
def allSingleton (d : Dict (List String)) : Prop :=
  ∀ k msgs, dictLookup d k = some msgs → msgs.length = 1

theorem allSingleton_nil : allSingleton [] := by
  intro k msgs h; simp at h

theorem allSingleton_insert (d : Dict (List String)) (k2 : String) (m : String)
    (h : allSingleton d) : allSingleton (dictInsert d k2 [m]) := by
  intro k msgs hl
  by_cases hk : k2 = k
  · subst hk
    rw [dictLookup_insert_self] at hl
    cases hl; rfl
  · rw [dictLookup_insert_ne d k k2 [m] hk] at hl
    exact h k msgs hl

theorem unknown_check_loop_allSingleton (s : Dict FieldType) (rf : ParamSet)
    (inv : Dict (List String)) (h : allSingleton inv) :
    allSingleton (unknown_check_loop s rf inv) := by
  induction rf generalizing inv with
  | nil => exact h
  | cons hd rest ih =>
      obtain ⟨fn, v⟩ := hd
      rw [unknown_check_loop]
      apply ih
      by_cases h1 : fn = "_method" ∨ fn = "callback"
      · rw [if_pos h1]; exact h
      · rw [if_neg h1]
        by_cases h2 : dictContains s fn = true
        · rw [if_pos h2]; exact h
        · rw [if_neg h2]
          exact allSingleton_insert inv fn notSupportedMsg h

theorem unknown_check_allSingleton (au : Bool) (s : Dict FieldType)
    (rf : ParamSet) (inv : Dict (List String)) (h : allSingleton inv) :
    allSingleton (unknown_check au s rf inv) := by
  rw [unknown_check]
  cases au with
  | true => rw [if_pos rfl]; exact h
  | false =>
      rw [if_neg (by simp)]
      exact unknown_check_loop_allSingleton s rf inv h

theorem required_step_allSingleton (request : Request) (rf : ParamSet)
    (fn : String) (ft : FieldType) (inv : Dict (List String))
    (h : allSingleton inv) :
    allSingleton (required_step request rf fn ft inv) := by
  rw [required_step]
  cases pyGet (if ft = FieldType.file then request.FILES else rf) fn with
  | some v => exact h
  | none => exact allSingleton_insert inv fn requiredMsg h

theorem required_check_allSingleton (request : Request) (rf : ParamSet)
    (l : Dict FieldType) (inv : Dict (List String)) (h : allSingleton inv) :
    allSingleton (required_check request rf l inv) := by
  induction l generalizing inv with
  | nil => exact h
  | cons hd rest ih =>
      obtain ⟨fn, ft⟩ := hd
      exact ih _ (required_step_allSingleton request rf fn ft inv h)

theorem coercion_pass_allSingleton (rf : ParamSet) (l : Dict FieldType)
    (kw : Dict PyValue) (inv : Dict (List String)) (h : allSingleton inv) :
    allSingleton (coercion_pass rf l kw inv).2 := by
  induction l generalizing kw inv with
  | nil => exact h
  | cons hd rest ih =>
      obtain ⟨fn, ft⟩ := hd
      rw [coercion_pass_cons]
      apply ih
      cases (coerce_field ft (pyGet rf fn)).2 with
      | none => exact h
      | some msg => exact allSingleton_insert inv fn msg h

/-! ## Dispatch lemmas for the validator -/

theorem list_isEmpty_true_iff {α : Type u} (l : List α) :
    l.isEmpty = true ↔ l = [] := by
  cases l <;> simp

theorem validate_out_eq (required optional : Dict FieldType) (au : Bool)
    (request : Request) (kwargs : Dict PyValue) :
    validate_out required optional au request kwargs =
      coercion_pass (selected_fields request) (dictUpdate required optional)
        kwargs
        (required_check request (selected_fields request) required
          (unknown_check au (dictUpdate required optional)
            (selected_fields request) [])) := rfl

theorem webapi_request_fields_callView (required optional : Dict FieldType)
    (au : Bool) (request : Request) (kwargs : Dict PyValue)
    (kw : Dict PyValue)
    (h : webapi_request_fields required optional au request kwargs =
      ValidateResult.callView kw) :
    kw = (validate_out required optional au request kwargs).1 ∧
    (validate_out required optional au request kwargs).2 = [] := by
  simp only [webapi_request_fields] at h
  by_cases he : (validate_out required optional au request kwargs).2.isEmpty = true
  · rw [if_pos he] at h
    refine ⟨(ValidateResult.callView.injEq .. ▸ h).symm,
      (list_isEmpty_true_iff _).mp he⟩
  · rw [if_neg he] at h
    exact absurd h (by simp)

theorem webapi_request_fields_invalid_of_lookup (required optional : Dict FieldType)
    (au : Bool) (request : Request) (kwargs : Dict PyValue) (k : String)
    (msgs : List String)
    (h : dictLookup (validate_out required optional au request kwargs).2 k =
      some msgs) :
    webapi_request_fields required optional au request kwargs =
      ValidateResult.invalidFormData
        (validate_out required optional au request kwargs).2 := by
  have hne := dictLookup_ne_nil _ _ _ h
  have hemp : ¬ (validate_out required optional au request kwargs).2.isEmpty = true :=
    fun hh => hne ((list_isEmpty_true_iff _).mp hh)
  simp only [webapi_request_fields]
  rw [if_neg hemp]

/-! ## Concrete requests used by the claim theorems -/

/-- A minimal request: `GET` with no parameters, unauthenticated, no
permissions, no `Authorization` header. -/
def baseRequest : Request :=
  { method := "GET", GET := [], POST := [], FILES := [],
    user_is_authenticated := false, user_has_perm := fun _ => false,
    has_auth_header := false }

/-! ## Claim theorems -/

/-- C1: the claim says the choice-violation message renders the valid
choices as a quoted, comma-joined list of the choice values themselves.
On the code, for `choices = ["a", "b"]` and value `"c"`, the recorded
message does name `'c'` but renders the choices part as the literal text
`'%s', '%s'`: the join in the source iterates the choices without
interpolating them, so the message never contains the choice values. -/
theorem claim1_choice_message_renders_placeholders :
    webapi_request_fields [] [("mode", FieldType.choices ["a", "b"])] false
      { baseRequest with GET := [("mode", some "c")] } [] =
      ValidateResult.invalidFormData
        [("mode",
          [sq ++ "c" ++ sq ++ " is not a valid value. Valid values are: " ++
            sq ++ "%s" ++ sq ++ ", " ++ sq ++ "%s" ++ sq])] ∧
    sq ++ "%s" ++ sq ++ ", " ++ sq ++ "%s" ++ sq ≠
      sq ++ "a" ++ sq ++ ", " ++ sq ++ "b" ++ sq := by
  exact ⟨rfl, by decide⟩

/-- C2: the claim says file-typed fields are skipped by the coercion pass
and never injected as named arguments.  On the code the skip guard is
`isinstance(info['type'], file)`, which is false for the class `file`, so
a file-typed field is written into the outgoing keyword arguments: with no
matching text parameter the handler receives it as `None`, and with a text
parameter of the same name it receives that raw value. -/
theorem claim2_file_field_injected :
    webapi_request_fields [] [("upload", FieldType.file)] false
      { baseRequest with method := "POST" } [] =
      ValidateResult.callView [("upload", PyValue.none)] ∧
    webapi_request_fields [] [("upload", FieldType.file)] false
      { baseRequest with method := "POST", POST := [("upload", some "x")] } [] =
      ValidateResult.callView [("upload", PyValue.str "x")] :=
  ⟨rfl, rfl⟩

/-- C9 (counterexample): with `required = {x: file}`, `optional = {x: int}`
and a `POST` carrying `x=abc` but no file upload, the required-field check
records `['This field is required']` under `x`, yet the final report maps
`x` to `["'abc' is not an integer"]` only: the coercion pass's assignment
replaced the earlier message instead of accumulating both. -/
theorem claim9_counterexample :
    required_check
        { baseRequest with method := "POST", POST := [("x", some "abc")] }
        (selected_fields
          { baseRequest with method := "POST", POST := [("x", some "abc")] })
        [("x", FieldType.file)] [] = [("x", [requiredMsg])] ∧
    webapi_request_fields [("x", FieldType.file)] [("x", FieldType.int)] false
      { baseRequest with method := "POST", POST := [("x", some "abc")] } [] =
      ValidateResult.invalidFormData [("x", [intErrMsg "abc"])] ∧
    requiredMsg ≠ intErrMsg "abc" := by
  refine ⟨by decide, by decide, by decide⟩

/-- C9 (amended): the invalid-fields report maps each field name to a
one-element message list: each check assigns a fresh singleton list under
the field name, so when several checks trigger for the same name the later
assignment replaces the earlier message rather than accumulating both. -/
theorem claim9_amended_singleton_messages (required optional : Dict FieldType)
    (au : Bool) (request : Request) (kwargs : Dict PyValue)
    (fields : Dict (List String)) (k : String) (msgs : List String)
    (h1 : webapi_request_fields required optional au request kwargs =
      ValidateResult.invalidFormData fields)
    (h2 : dictLookup fields k = some msgs) : msgs.length = 1 := by
  have hf : (validate_out required optional au request kwargs).2 = fields := by
    simp only [webapi_request_fields] at h1
    by_cases he :
        (validate_out required optional au request kwargs).2.isEmpty = true
    · rw [if_pos he] at h1
      exact absurd h1 (by simp)
    · rw [if_neg he] at h1
      exact ValidateResult.invalidFormData.injEq .. ▸ h1
  have hsing : allSingleton (validate_out required optional au request kwargs).2 := by
    rw [validate_out_eq]
    exact coercion_pass_allSingleton _ _ _ _
      (required_check_allSingleton _ _ _ _
        (unknown_check_allSingleton _ _ _ _ allSingleton_nil))
  exact hsing k msgs (hf ▸ h2)

/-- C9 (amended) witness: the counterexample input instantiates the amended
claim: the surviving message list under `x` has length one. -/
theorem claim9_amended_witness :
    webapi_request_fields [("x", FieldType.file)] [("x", FieldType.int)] false
      { baseRequest with method := "POST", POST := [("x", some "abc")] } [] =
      ValidateResult.invalidFormData [("x", [intErrMsg "abc"])] ∧
    dictLookup [("x", [intErrMsg "abc"])] "x" = some [intErrMsg "abc"] ∧
    ([intErrMsg "abc"] : List String).length = 1 :=
  have h1 : webapi_request_fields [("x", FieldType.file)]
      [("x", FieldType.int)] false
      { baseRequest with method := "POST", POST := [("x", some "abc")] } [] =
      ValidateResult.invalidFormData [("x", [intErrMsg "abc"])] := by decide
  ⟨h1, rfl,
    claim9_amended_singleton_messages [("x", FieldType.file)]
      [("x", FieldType.int)] false
      { baseRequest with method := "POST", POST := [("x", some "abc")] } []
      [("x", [intErrMsg "abc"])] "x" [intErrMsg "abc"] h1 rfl⟩

/-- C4: with `allow_unknown` false, every field name present in the source
parameter set other than `_method` and `callback` that is not a key of
`required ∪ optional` ends up in the returned `INVALID_FORM_DATA` report
with the violation `['Field is not supported']`; the unknown-field check
leaves the two reserved names untouched whatever the schema; and with
`allow_unknown` true the check is the identity on the report. -/
theorem claim4_unknown_field_check (required optional : Dict FieldType)
    (au : Bool) (request : Request) (kwargs : Dict PyValue) (k : String)
    (inv : Dict (List String)) :
    (au = false → k ∈ (selected_fields request).map Prod.fst →
      ¬(k = "_method" ∨ k = "callback") →
      dictContains (dictUpdate required optional) k = false →
      ∃ fields, webapi_request_fields required optional au request kwargs =
          ValidateResult.invalidFormData fields ∧
        dictLookup fields k = some [notSupportedMsg]) ∧
    ((k = "_method" ∨ k = "callback") →
      dictLookup (unknown_check au (dictUpdate required optional)
        (selected_fields request) inv) k = dictLookup inv k) ∧
    (unknown_check true (dictUpdate required optional)
      (selected_fields request) inv = inv) := by
  refine ⟨?_, ?_, rfl⟩
  · intro hau hmem hres hsup
    subst hau
    have h1 : dictLookup (unknown_check false (dictUpdate required optional)
        (selected_fields request) []) k = some [notSupportedMsg] := by
      rw [unknown_check, if_neg (by simp)]
      exact unknown_check_loop_records _ _ _ k hmem hres hsup
    have hcr : dictContains required k = false := by
      rw [dictContains_dictUpdate optional required k] at hsup
      exact (Bool.or_eq_false_iff.mp hsup).1
    have hnr : k ∉ required.map Prod.fst := by
      intro hm
      rw [(dictContains_iff_mem_keys required k).mpr hm] at hcr
      exact absurd hcr (by simp)
    have hns : k ∉ (dictUpdate required optional).map Prod.fst := by
      intro hm
      rw [(dictContains_iff_mem_keys _ k).mpr hm] at hsup
      exact absurd hsup (by simp)
    have h2 : dictLookup (validate_out required optional false request kwargs).2 k =
        some [notSupportedMsg] := by
      rw [validate_out_eq, coercion_pass_invalid_frame _ _ _ _ k hns,
        required_check_frame _ _ _ _ k hnr]
      exact h1
    exact ⟨_, webapi_request_fields_invalid_of_lookup _ _ _ _ _ _ _ h2, h2⟩
  · intro hres
    rw [unknown_check]
    cases au with
    | true => rw [if_pos rfl]
    | false =>
        rw [if_neg (by simp)]
        exact unknown_check_loop_frame _ _ inv k (Or.inl hres)

/-- C4 witness: an unknown field `x` in the query string of a `GET` request
with an empty schema is reported as not supported; the reserved name
`_method` is left untouched by the unknown-field check; the check with
`allow_unknown` true is the identity. -/
theorem claim4_witness :
    ("x" ∈ (selected_fields
      { baseRequest with GET := [("x", some "1")] }).map Prod.fst) ∧
    dictContains (dictUpdate ([] : Dict FieldType) []) "x" = false ∧
    (∃ fields, webapi_request_fields [] [] false
        { baseRequest with GET := [("x", some "1")] } [] =
        ValidateResult.invalidFormData fields ∧
      dictLookup fields "x" = some [notSupportedMsg]) ∧
    dictLookup (unknown_check false (dictUpdate ([] : Dict FieldType) [])
      (selected_fields { baseRequest with GET := [("_method", some "PUT")] })
      []) "_method" = dictLookup ([] : Dict (List String)) "_method" ∧
    unknown_check true (dictUpdate ([] : Dict FieldType) [])
      (selected_fields { baseRequest with GET := [("x", some "1")] }) [] = [] :=
  ⟨by decide, rfl,
    (claim4_unknown_field_check [] [] false
      { baseRequest with GET := [("x", some "1")] } [] "x" []).1
      rfl (by decide) (by decide) rfl,
    (claim4_unknown_field_check [] [] false
      { baseRequest with GET := [("_method", some "PUT")] } [] "_method" []).2.1
      (Or.inl rfl),
    (claim4_unknown_field_check [] [] true
      { baseRequest with GET := [("x", some "1")] } [] "x" []).2.2⟩

/-- C5: for every entry `(field_name, ftype)` of the required schema, the
source set consulted is `request.FILES` when `ftype` is the file-upload
marker and the selected parameter set otherwise, and whenever that source
yields no value (absent or null), the required-field check records
`['This field is required']` under `field_name`. -/
theorem claim5_required_field_check (required : Dict FieldType)
    (request : Request) (request_fields : ParamSet)
    (inv : Dict (List String)) (field_name : String) (ftype : FieldType)
    (hmem : (field_name, ftype) ∈ required)
    (habs : pyGet (if ftype = FieldType.file then request.FILES
      else request_fields) field_name = none) :
    dictLookup (required_check request request_fields required inv)
      field_name = some [requiredMsg] :=
  required_check_records request request_fields required inv field_name
    ftype hmem habs

/-- C5 witness: the spec's example — `required = {name: string}` and a
request without `name` — records the required violation under `name`. -/
theorem claim5_witness :
    (("name", FieldType.str) ∈ ([("name", FieldType.str)] : Dict FieldType)) ∧
    pyGet (if FieldType.str = FieldType.file then baseRequest.FILES
      else ([] : ParamSet)) "name" = none ∧
    dictLookup (required_check baseRequest [] [("name", FieldType.str)] [])
      "name" = some [requiredMsg] :=
  ⟨by decide, rfl,
    claim5_required_field_check [("name", FieldType.str)] baseRequest [] []
      "name" FieldType.str (by decide) rfl⟩

/-- C6: for an integer-typed field of the merged schema whose raw value is
present in the source parameter set: when the value parses, the keyword
arguments delivered to the handler bind the field name to the parsed
integer; when it does not parse, the validator returns an
`INVALID_FORM_DATA` report mapping the field name to
`["'<value>' is not an integer"]`. -/
theorem claim6_integer_coercion (required optional : Dict FieldType)
    (au : Bool) (request : Request) (kwargs : Dict PyValue)
    (field_name raw : String)
    (hmem : (field_name, FieldType.int) ∈ dictUpdate required optional)
    (hnd : ((dictUpdate required optional).map Prod.fst).Nodup)
    (hraw : pyGet (selected_fields request) field_name = some raw) :
    (∀ n : Int, pyInt raw = some n →
      ∀ kw, webapi_request_fields required optional au request kwargs =
          ValidateResult.callView kw →
        dictLookup kw field_name = some (PyValue.int n)) ∧
    (pyInt raw = none →
      ∃ fields, webapi_request_fields required optional au request kwargs =
          ValidateResult.invalidFormData fields ∧
        dictLookup fields field_name = some [intErrMsg raw]) := by
  constructor
  · intro n hn kw hkw
    obtain ⟨hkw1, _⟩ := webapi_request_fields_callView _ _ _ _ _ _ hkw
    subst hkw1
    rw [validate_out_eq,
      coercion_pass_kwargs_lookup (selected_fields request) _ kwargs _
        field_name FieldType.int hmem hnd, hraw]
    simp [coerce_field, hn]
  · intro hn
    have hc : (coerce_field FieldType.int
        (pyGet (selected_fields request) field_name)).2 =
        some (intErrMsg raw) := by
      rw [hraw]
      simp [coerce_field, hn]
    have hl : dictLookup (validate_out required optional au request kwargs).2
        field_name = some [intErrMsg raw] := by
      rw [validate_out_eq]
      exact coercion_pass_invalid_lookup (selected_fields request) _ kwargs _
        field_name FieldType.int (intErrMsg raw) hmem hnd hc
    exact ⟨_, webapi_request_fields_invalid_of_lookup _ _ _ _ _ _ _ hl, hl⟩

/-- C6 witness: the spec's example — `optional = {count: integer}` with
`count=5` binds `count` to the integer 5 in the delivered arguments. -/
theorem claim6_witness :
    (("count", FieldType.int) ∈
      dictUpdate ([] : Dict FieldType) [("count", FieldType.int)]) ∧
    pyGet (selected_fields { baseRequest with GET := [("count", some "5")] })
      "count" = some "5" ∧
    pyInt "5" = some 5 ∧
    dictLookup [("count", PyValue.int 5)] "count" = some (PyValue.int 5) :=
  ⟨by decide, rfl, by decide,
    (claim6_integer_coercion [] [("count", FieldType.int)] false
      { baseRequest with GET := [("count", some "5")] } [] "count" "5"
      (by decide) (by decide) rfl).1 5 (by decide)
      [("count", PyValue.int 5)] (by decide)⟩

/-- C3: when the report built by the single pass is non-empty the wrapper
returns the `INVALID_FORM_DATA` error with detail payload
`{fields: invalid_fields}` — for every view, so the handler is never
invoked; otherwise it returns the view applied to the original positional
arguments and the merged keyword arguments; and under any key of the
merged schema the delivered value is the same whatever keyword arguments
the caller supplied, i.e. coerced values override caller keywords. -/
theorem claim3_error_dispatch {A R : Type} (view : A → Dict PyValue → R)
    (required optional : Dict FieldType) (au : Bool) (request : Request)
    (args : A) (kwargs : Dict PyValue) :
    ((validate_out required optional au request kwargs).2 ≠ [] →
      webapi_request_fields_run view required optional au request args kwargs =
        Sum.inl (ApiError.INVALID_FORM_DATA,
          (validate_out required optional au request kwargs).2)) ∧
    ((validate_out required optional au request kwargs).2 = [] →
      webapi_request_fields_run view required optional au request args kwargs =
        Sum.inr (view args
          (validate_out required optional au request kwargs).1)) ∧
    (∀ k, k ∈ (dictUpdate required optional).map Prod.fst →
      ∀ (kwargs2 : Dict PyValue) (inv2 : Dict (List String)),
        dictLookup (validate_out required optional au request kwargs).1 k =
          dictLookup (coercion_pass (selected_fields request)
            (dictUpdate required optional) kwargs2 inv2).1 k) := by
  refine ⟨?_, ?_, ?_⟩
  · intro h
    have hw : webapi_request_fields required optional au request kwargs =
        ValidateResult.invalidFormData
          (validate_out required optional au request kwargs).2 := by
      simp only [webapi_request_fields]
      rw [if_neg (fun hh => h ((list_isEmpty_true_iff _).mp hh))]
    simp only [webapi_request_fields_run, hw]
  · intro h
    have hw : webapi_request_fields required optional au request kwargs =
        ValidateResult.callView
          (validate_out required optional au request kwargs).1 := by
      simp only [webapi_request_fields]
      rw [if_pos ((list_isEmpty_true_iff _).mpr h)]
    simp only [webapi_request_fields_run, hw]
  · intro k hk kwargs2 inv2
    rw [validate_out_eq]
    exact coercion_pass_override _ _ k hk _ _ _ _

/-- C3 witness: a request with one unsupported field short-circuits to the
`INVALID_FORM_DATA` payload without consulting the view; an empty schema
with an empty request delivers the caller's (empty) keyword arguments to
the view; a declared field's delivered value ignores the caller keyword of
the same name. -/
theorem claim3_witness :
    ((validate_out [] [] false
      { baseRequest with GET := [("x", some "1")] } []).2 ≠ []) ∧
    webapi_request_fields_run (fun (_ : Nat) (kw : Dict PyValue) => kw) [] []
      false { baseRequest with GET := [("x", some "1")] } 0 [] =
      Sum.inl (ApiError.INVALID_FORM_DATA, [("x", [notSupportedMsg])]) ∧
    webapi_request_fields_run (fun (_ : Nat) (kw : Dict PyValue) => kw) [] []
      false baseRequest 0 [] = Sum.inr [] ∧
    dictLookup (validate_out [] [("count", FieldType.int)] false
      { baseRequest with GET := [("count", some "5")] }
      [("count", PyValue.str "caller")]).1 "count" =
      dictLookup (coercion_pass
        (selected_fields { baseRequest with GET := [("count", some "5")] })
        (dictUpdate [] [("count", FieldType.int)]) [] []).1 "count" :=
  ⟨by decide,
    (claim3_error_dispatch (fun (_ : Nat) (kw : Dict PyValue) => kw) [] []
      false { baseRequest with GET := [("x", some "1")] } 0 []).1 (by decide),
    (claim3_error_dispatch (fun (_ : Nat) (kw : Dict PyValue) => kw) [] []
      false baseRequest 0 []).2.1 rfl,
    (claim3_error_dispatch (fun (_ : Nat) (kw : Dict PyValue) => kw) []
      [("count", FieldType.int)] false
      { baseRequest with GET := [("count", some "5")] } 0
      [("count", PyValue.str "caller")]).2.2 "count" (by decide) [] []⟩

/-- C10: a caller-supplied keyword argument whose name is not a key of
`required ∪ optional` reaches the handler unchanged, and when validation
succeeds the wrapper returns the view applied to the original positional
arguments and the merged keyword arguments: the merge only adds or
overrides declared schema field names. -/
theorem claim10_kwargs_frame {A R : Type} (view : A → Dict PyValue → R)
    (required optional : Dict FieldType) (au : Bool) (request : Request)
    (args : A) (kwargs : Dict PyValue) (k : String)
    (hk : dictContains (dictUpdate required optional) k = false) :
    ∀ kw, webapi_request_fields required optional au request kwargs =
        ValidateResult.callView kw →
      dictLookup kw k = dictLookup kwargs k ∧
      webapi_request_fields_run view required optional au request args kwargs =
        Sum.inr (view args kw) := by
  intro kw hkw
  obtain ⟨h1, _⟩ := webapi_request_fields_callView _ _ _ _ _ _ hkw
  constructor
  · subst h1
    rw [validate_out_eq]
    apply coercion_pass_kwargs_frame
    intro hm
    rw [(dictContains_iff_mem_keys _ _).mpr hm] at hk
    exact absurd hk (by simp)
  · simp only [webapi_request_fields_run, hkw]

/-- C10 witness: with schema `{count: integer}` and caller keyword
`extra`, the handler receives `extra` unchanged next to the coerced
`count`. -/
theorem claim10_witness :
    dictContains (dictUpdate ([] : Dict FieldType)
      [("count", FieldType.int)]) "extra" = false ∧
    dictLookup [("extra", PyValue.str "e"), ("count", PyValue.int 5)]
        "extra" = dictLookup [("extra", PyValue.str "e")] "extra" ∧
    webapi_request_fields_run (fun (_ : Nat) (kw : Dict PyValue) => kw) []
      [("count", FieldType.int)] false
      { baseRequest with GET := [("count", some "5")] } 0
      [("extra", PyValue.str "e")] =
      Sum.inr [("extra", PyValue.str "e"), ("count", PyValue.int 5)] :=
  ⟨rfl,
    (claim10_kwargs_frame (fun (_ : Nat) (kw : Dict PyValue) => kw) []
      [("count", FieldType.int)] false
      { baseRequest with GET := [("count", some "5")] } 0
      [("extra", PyValue.str "e")] "extra" rfl
      [("extra", PyValue.str "e"), ("count", PyValue.int 5)] (by decide)).1,
    (claim10_kwargs_frame (fun (_ : Nat) (kw : Dict PyValue) => kw) []
      [("count", FieldType.int)] false
      { baseRequest with GET := [("count", some "5")] } 0
      [("extra", PyValue.str "e")] "extra" rfl
      [("extra", PyValue.str "e"), ("count", PyValue.int 5)] (by decide)).2⟩

/-- C7: the auth gate performs exactly one credential exchange when the
request is unauthenticated and carries an `Authorization`-style header and
zero otherwise (never more than one); after the re-check, an authenticated
identity means the view is invoked on the (possibly login-mutated) request
and its result returned format-tagged, and an unauthenticated identity
means a `NOT_LOGGED_IN` error response carrying the resolved format, with
the view never consulted. -/
theorem claim7_login_gate (login : Request → Request) (view : Request → Resp)
    (request : Request) (kwargs : Dict PyValue) :
    ((checklogin login view request kwargs).2 =
      if !request.user_is_authenticated && request.has_auth_header
      then 1 else 0) ∧
    (checklogin login view request kwargs).2 ≤ 1 ∧
    (∀ request2,
      request2 = (if !request.user_is_authenticated && request.has_auth_header
        then login request else request) →
      (request2.user_is_authenticated = true →
        (checklogin login view request kwargs).1 =
          set_api_format (view request2) kwargs) ∧
      (request2.user_is_authenticated = false →
        (checklogin login view request kwargs).1 =
          Resp.webapi (some ApiError.NOT_LOGGED_IN)
            ((dictLookup kwargs "api_format").getD (PyValue.str "json")))) := by
  refine ⟨?_, ?_, ?_⟩
  · by_cases hc :
        (!request.user_is_authenticated && request.has_auth_header) = true
    · rw [if_pos hc]
      simp [checklogin, hc]
    · rw [if_neg hc]
      simp [checklogin, hc]
  · by_cases hc :
        (!request.user_is_authenticated && request.has_auth_header) = true
    · simp [checklogin, hc]
    · simp [checklogin, hc]
  · intro request2 hr2
    by_cases hc :
        (!request.user_is_authenticated && request.has_auth_header) = true
    · rw [if_pos hc] at hr2
      subst hr2
      constructor
      · intro hauth
        simp [checklogin, hc, hauth]
      · intro hauth
        simp [checklogin, hc, hauth, set_api_format]
    · rw [if_neg hc] at hr2
      subst hr2
      constructor
      · intro hauth
        simp [checklogin, hc, hauth]
      · intro hauth
        have hh : request2.has_auth_header = false := by
          simp [hauth] at hc
          exact hc
        simp [checklogin, hauth, hh, set_api_format]

/-- C7 witness: an unauthenticated request with an `Authorization` header
and a succeeding backend makes exactly one attempt and the view's plain
result passes through; an unauthenticated request without the header makes
zero attempts and gets the `NOT_LOGGED_IN` error. -/
theorem claim7_witness :
    (checklogin (fun r => { r with user_is_authenticated := true })
      (fun _ => Resp.plain) { baseRequest with has_auth_header := true }
      []).2 = 1 ∧
    (checklogin (fun r => { r with user_is_authenticated := true })
      (fun _ => Resp.plain) { baseRequest with has_auth_header := true }
      []).1 = Resp.plain ∧
    (checklogin (fun r => r) (fun _ => Resp.plain) baseRequest []).2 = 0 ∧
    (checklogin (fun r => r) (fun _ => Resp.plain) baseRequest []).1 =
      Resp.webapi (some ApiError.NOT_LOGGED_IN) (PyValue.str "json") :=
  ⟨(claim7_login_gate (fun r => { r with user_is_authenticated := true })
      (fun _ => Resp.plain) { baseRequest with has_auth_header := true } []).1,
    ((claim7_login_gate (fun r => { r with user_is_authenticated := true })
      (fun _ => Resp.plain) { baseRequest with has_auth_header := true }
      []).2.2 _ rfl).1 rfl,
    (claim7_login_gate (fun r => r) (fun _ => Resp.plain) baseRequest []).1,
    ((claim7_login_gate (fun r => r) (fun _ => Resp.plain) baseRequest
      []).2.2 _ rfl).2 rfl⟩

/-- C8: the permission gate checks in order with first match winning: an
unauthenticated caller gets the `NOT_LOGGED_IN` error whatever permission
predicate the user carries (the permission is never consulted) and
whatever the view; an authenticated caller without the named permission
gets the `PERMISSION_DENIED` error; otherwise the view's result is
returned; each branch's response is format-tagged.  The gate reads only
`request.user`: it makes no credential-exchange call, so the first branch
applies even when an `Authorization` header is present. -/
theorem claim8_permission_gate (perm : String) (view : Request → Resp)
    (request : Request) (kwargs : Dict PyValue) :
    (request.user_is_authenticated = false →
      ∀ g : String → Bool,
        checkpermissions perm view { request with user_has_perm := g }
          kwargs =
          Resp.webapi (some ApiError.NOT_LOGGED_IN)
            ((dictLookup kwargs "api_format").getD (PyValue.str "json"))) ∧
    (request.user_is_authenticated = true →
      request.user_has_perm perm = false →
      checkpermissions perm view request kwargs =
        Resp.webapi (some ApiError.PERMISSION_DENIED)
          ((dictLookup kwargs "api_format").getD (PyValue.str "json"))) ∧
    (request.user_is_authenticated = true →
      request.user_has_perm perm = true →
      checkpermissions perm view request kwargs =
        set_api_format (view request) kwargs) := by
  refine ⟨?_, ?_, ?_⟩
  · intro hna g
    simp only [checkpermissions, hna, Bool.not_false, if_true, set_api_format]
  · intro ha hp
    simp only [checkpermissions, ha, Bool.not_true, Bool.false_eq_true,
      if_false, hp, Bool.not_false, if_true, set_api_format]
  · intro ha hp
    simp only [checkpermissions, ha, Bool.not_true, Bool.false_eq_true,
      if_false, hp]

/-- C8 witness: an unauthenticated caller (even with an `Authorization`
header present) gets `NOT_LOGGED_IN`; an authenticated caller without the
permission gets `PERMISSION_DENIED`; an authenticated caller with it gets
the view's plain result. -/
theorem claim8_witness :
    checkpermissions "p" (fun _ => Resp.plain)
      { baseRequest with
        has_auth_header := true,
        user_has_perm := (fun _ => false) } [] =
      Resp.webapi (some ApiError.NOT_LOGGED_IN) (PyValue.str "json") ∧
    checkpermissions "p" (fun _ => Resp.plain)
      { baseRequest with user_is_authenticated := true } [] =
      Resp.webapi (some ApiError.PERMISSION_DENIED) (PyValue.str "json") ∧
    checkpermissions "p" (fun _ => Resp.plain)
      { baseRequest with
        user_is_authenticated := true,
        user_has_perm := (fun _ => true) } [] = Resp.plain :=
  ⟨(claim8_permission_gate "p" (fun _ => Resp.plain)
      { baseRequest with has_auth_header := true } []).1 rfl
      (fun _ => false),
    (claim8_permission_gate "p" (fun _ => Resp.plain)
      { baseRequest with user_is_authenticated := true } []).2.1 rfl rfl,
    (claim8_permission_gate "p" (fun _ => Resp.plain)
      { baseRequest with
        user_is_authenticated := true,
        user_has_perm := (fun _ => true) } []).2.2 rfl rfl⟩

end Djblets
